import Mathlib

/-!
Verification of `metro_news_scraper_enriched.py`: a shallow embedding of the
scraper's pure logic (text normalisation, keyword classifiers, locator,
record assembly, merge/dedupe/sort) together with proofs of the specified
properties.  Strings are handled as `List Char` where character-level
reasoning is needed; Python semantics (truthiness, `str.lower`, `\s`, `\b`,
`in`) are modelled explicitly.
-/

namespace Metro

/-- Python `\s` (whitespace class), restricted to the ASCII whitespace
characters that can occur in the scraped text. -/
def pyIsSpace (c : Char) : Bool :=
  c == ' ' || c == '\t' || c == '\n' || c == '\r' || c == '\x0b' || c == '\x0c'

/-- Python `str.lower`, modelled on ASCII letters and the Latin-1 uppercase
range (covers every character appearing in the script's keyword tables);
characters outside these ranges are left unchanged. -/
def pyLower (c : Char) : Char :=
  if 65 ≤ c.toNat && c.toNat ≤ 90 then Char.ofNat (c.toNat + 32)
  else if 0xC0 ≤ c.toNat && c.toNat ≤ 0xDE && c.toNat != 0xD7 then Char.ofNat (c.toNat + 32)
  else c

/-- Python regex `\w` (word character) for the texts at hand: ASCII
alphanumerics and underscore, Latin-1 letters, and everything beyond
Latin-1 (the city tables only use letters there). -/
def isWordChar (c : Char) : Bool :=
  c == '_' || c.isAlphanum ||
  (0xC0 ≤ c.toNat && c.toNat ≤ 0xFF && c.toNat != 0xD7 && c.toNat != 0xF7) ||
  0x100 ≤ c.toNat

/-- Python truthiness-based `or` on strings: `a or b`. -/
def pyOr (a b : String) : String := if a = "" then b else a

/-- Model of the regex substitution in `clean` (collapse each maximal
whitespace run to a single `' '`) on a character list.  The boolean argument records whether the
previous character was whitespace (i.e. we are inside a run). -/
def collapseWs : Bool → List Char → List Char
  | _, [] => []
  | prevSpace, c :: rest =>
    if pyIsSpace c then
      if prevSpace then collapseWs true rest
      else ' ' :: collapseWs true rest
    else c :: collapseWs false rest

/-- Python `str.strip()`: drop whitespace from both ends. -/
def pyStrip (l : List Char) : List Char :=
  ((l.dropWhile pyIsSpace).reverse.dropWhile pyIsSpace).reverse

/-- Function `clean` from the script: `None`/empty → `""`, otherwise collapse every
whitespace run to one space and trim the ends. -/
def clean (text : Option String) : String :=
  match text with
  | none => ""
  | some s => if s = "" then "" else ⟨pyStrip (collapseWs false s.data)⟩

/-- Variant of `clean` applied to a plain (non-`None`) string. -/
def cleanS (s : String) : String := clean (some s)

/-! ### Properties of `collapseWs` and `pyStrip` -/

theorem collapseWs_cons (b : Bool) (c : Char) (rest : List Char) :
    collapseWs b (c :: rest) =
      if pyIsSpace c then
        (if b then collapseWs true rest else ' ' :: collapseWs true rest)
      else c :: collapseWs false rest := by
  cases b <;> simp [collapseWs]

/-- No character of `collapseWs b l` is whitespace other than `' '`. -/
theorem collapseWs_ws_is_space : ∀ (b : Bool) (l : List Char),
    ∀ c ∈ collapseWs b l, pyIsSpace c → c = ' ' := by
  intro b l
  induction l generalizing b with
  | nil => simp [collapseWs]
  | cons c rest ih =>
    intro d hd hws
    by_cases hc : pyIsSpace c
    · cases b with
      | true =>
        simp only [collapseWs, hc, if_pos, if_true] at hd
        exact ih true d hd hws
      | false =>
        simp only [collapseWs, hc, if_pos, if_true] at hd
        rcases List.mem_cons.mp hd with h | h
        · exact h
        · exact ih true d h hws
    · simp only [collapseWs, hc] at hd
      rcases List.mem_cons.mp hd with h | h
      · subst h; exact absurd hws (by simp [hc])
      · exact ih false d h hws

/-- After a whitespace character was just emitted (flag `true`), the output
never starts with whitespace. -/
theorem collapseWs_true_head : ∀ (l : List Char) (c : Char),
    c ∈ (collapseWs true l).head? → ¬ pyIsSpace c := by
  intro l
  induction l with
  | nil => simp [collapseWs]
  | cons a rest ih =>
    intro c hc
    by_cases ha : pyIsSpace a
    · rw [collapseWs_cons, if_pos ha, if_pos rfl] at hc
      exact ih c hc
    · rw [collapseWs_cons, if_neg ha] at hc
      simp only [List.head?_cons, Option.mem_def, Option.some.injEq] at hc
      subst hc; simp [ha]

/-- The output of `collapseWs` never contains two adjacent whitespace characters. -/
theorem collapseWs_chain : ∀ (b : Bool) (l : List Char),
    (collapseWs b l).Chain' (fun a c => ¬(pyIsSpace a ∧ pyIsSpace c)) := by
  intro b l
  induction l generalizing b with
  | nil => simp [collapseWs]
  | cons a rest ih =>
    by_cases ha : pyIsSpace a
    · cases b with
      | true => simpa [collapseWs, ha] using ih true
      | false =>
        simp only [collapseWs, ha, if_pos, if_true]
        refine List.chain'_cons'.mpr ⟨?_, ih true⟩
        intro c hc
        intro ⟨_, hcs⟩
        exact collapseWs_true_head rest c hc hcs
    · simp only [collapseWs, ha, if_neg, Bool.false_eq_true, not_false_eq_true]
      refine List.chain'_cons'.mpr ⟨?_, ih false⟩
      intro c _
      intro ⟨has, _⟩
      simp [ha] at has

/-- The head of `dropWhile p l` does not satisfy `p`. -/
theorem head_dropWhile_not (p : α → Bool) : ∀ (l : List α) (c : α),
    c ∈ (l.dropWhile p).head? → ¬ p c := by
  intro l
  induction l with
  | nil => simp [List.dropWhile]
  | cons a rest ih =>
    intro c hc
    by_cases ha : p a
    · rw [List.dropWhile_cons_of_pos ha] at hc
      exact ih c hc
    · rw [List.dropWhile_cons_of_neg ha] at hc
      simp only [List.head?_cons, Option.mem_def, Option.some.injEq] at hc
      subst hc; simp [ha]

/-- The stripped list is an infix of the input list. -/
theorem pyStrip_infix_self (l : List Char) : pyStrip l <:+: l := by
  unfold pyStrip
  have h1 : l.dropWhile pyIsSpace <:+ l := List.dropWhile_suffix pyIsSpace
  have h : (l.dropWhile pyIsSpace).reverse.dropWhile pyIsSpace <:+
      (l.dropWhile pyIsSpace).reverse := List.dropWhile_suffix pyIsSpace
  have h2 := List.reverse_prefix.mpr h
  rw [List.reverse_reverse] at h2
  exact List.IsInfix.trans (List.IsPrefix.isInfix h2) (List.IsSuffix.isInfix h1)

/-- Function `dropWhile` is the identity when the head (if any) fails the predicate. -/
theorem dropWhile_eq_self_of_head (p : α → Bool) (l : List α)
    (h : ∀ c ∈ l.head?, ¬ p c) : l.dropWhile p = l := by
  cases l with
  | nil => rfl
  | cons c cs =>
    have : ¬ p c := h c (by simp)
    simp [List.dropWhile_cons_of_neg this]

/-- The head of a stripped list is not whitespace. -/
theorem pyStrip_head (l : List Char) : ∀ c ∈ (pyStrip l).head?, ¬ pyIsSpace c := by
  intro c hc
  have h : (l.dropWhile pyIsSpace).reverse.dropWhile pyIsSpace <:+
      (l.dropWhile pyIsSpace).reverse := List.dropWhile_suffix pyIsSpace
  have h2 : pyStrip l <+: l.dropWhile pyIsSpace := by
    unfold pyStrip
    have h3 := List.reverse_prefix.mpr h
    rwa [List.reverse_reverse] at h3
  obtain ⟨t, ht⟩ := h2
  have hhd : (l.dropWhile pyIsSpace).head? = some c := by
    rw [← ht]
    rcases he : pyStrip l with _ | ⟨d, ds⟩
    · rw [he] at hc; simp at hc
    · rw [he] at hc
      simp only [List.head?_cons, Option.mem_def, Option.some.injEq] at hc
      simp [hc]
  exact head_dropWhile_not pyIsSpace l c (by rw [hhd]; rfl)

/-- The last character of a stripped list is not whitespace. -/
theorem pyStrip_getLast (l : List Char) :
    ∀ c ∈ (pyStrip l).getLast?, ¬ pyIsSpace c := by
  intro c hc
  unfold pyStrip at hc
  rw [List.getLast?_reverse] at hc
  exact head_dropWhile_not pyIsSpace _ c hc

/-- On a list without consecutive whitespace whose whitespace is all `' '`,
`collapseWs` is the identity (in both flag states, for the `true` flag
provided the head is not whitespace). -/
theorem collapseWs_eq_self : ∀ l : List Char,
    l.Chain' (fun a c => ¬(pyIsSpace a ∧ pyIsSpace c)) →
    (∀ c ∈ l, pyIsSpace c → c = ' ') →
    collapseWs false l = l ∧
      ((∀ c ∈ l.head?, ¬ pyIsSpace c) → collapseWs true l = l) := by
  intro l
  induction l with
  | nil => simp [collapseWs]
  | cons c rest ih =>
    intro hchain hws
    have hchain' := (List.chain'_cons'.mp hchain)
    have ihrest := ih hchain'.2 (fun d hd => hws d (List.mem_cons_of_mem c hd))
    constructor
    · by_cases hc : pyIsSpace c
      · have hcsp : c = ' ' := hws c (List.mem_cons_self c rest) hc
        rw [collapseWs_cons, if_pos hc, if_neg (by simp)]
        have hhead : ∀ d ∈ rest.head?, ¬ pyIsSpace d := by
          intro d hd
          intro hds
          exact hchain'.1 d hd ⟨hc, hds⟩
        rw [ihrest.2 hhead, hcsp]
      · rw [collapseWs_cons, if_neg hc, ihrest.1]
    · intro hh
      have hc : ¬ pyIsSpace c := hh c (by simp)
      rw [collapseWs_cons, if_neg hc, ihrest.1]

/-- Function `pyStrip` is the identity when neither end is whitespace. -/
theorem pyStrip_eq_self (l : List Char)
    (hh : ∀ c ∈ l.head?, ¬ pyIsSpace c)
    (hl : ∀ c ∈ l.getLast?, ¬ pyIsSpace c) : pyStrip l = l := by
  unfold pyStrip
  rw [dropWhile_eq_self_of_head pyIsSpace l hh]
  rw [dropWhile_eq_self_of_head pyIsSpace l.reverse (by simpa using hl)]
  exact List.reverse_reverse l

/-- The four structural facts about the characters of any `clean` output:
no consecutive whitespace, all whitespace is `' '`, and neither end is
whitespace. -/
theorem clean_data_props (x : Option String) :
    (clean x).data.Chain' (fun a b => ¬(pyIsSpace a ∧ pyIsSpace b)) ∧
    (∀ c ∈ (clean x).data, pyIsSpace c → c = ' ') ∧
    (∀ c ∈ (clean x).data.head?, ¬ pyIsSpace c) ∧
    (∀ c ∈ (clean x).data.getLast?, ¬ pyIsSpace c) := by
  rcases x with _ | s
  · simp [clean]
  · by_cases hs : s = ""
    · simp [clean, hs]
    · have hdata : (clean (some s)).data = pyStrip (collapseWs false s.data) := by
        simp [clean, hs]
      rw [hdata]
      refine ⟨?_, ?_, pyStrip_head _, pyStrip_getLast _⟩
      · exact List.Chain'.infix (collapseWs_chain false s.data) (pyStrip_infix_self _)
      · intro c hc
        exact collapseWs_ws_is_space false s.data c (List.IsInfix.subset (pyStrip_infix_self _) hc)

/-- Function `clean` is the identity on its own output. -/
theorem clean_idem (x : Option String) : cleanS (clean x) = clean x := by
  obtain ⟨hchain, hws, hh, hl⟩ := clean_data_props x
  generalize hgen : clean x = s at *
  by_cases h : s = ""
  · rw [h]; rfl
  · show clean (some s) = s
    rw [show clean (some s)
        = if s = "" then "" else ⟨pyStrip (collapseWs false s.data)⟩ from rfl,
      if_neg h, (collapseWs_eq_self s.data hchain hws).1, pyStrip_eq_self _ hh hl]

/-- C9: for every input (including `None` and the empty string), `clean`
returns a string with no run of consecutive whitespace (all whitespace in
the output is a single `' '`), no leading or trailing whitespace;
`clean None = ""` and `clean "" = ""`; and `clean` is idempotent:
`clean (clean x) = clean x`. -/
theorem C9_clean_correct (x : Option String) :
    (clean x).data.Chain' (fun a b => ¬(pyIsSpace a ∧ pyIsSpace b)) ∧
    (∀ c ∈ (clean x).data, pyIsSpace c → c = ' ') ∧
    (∀ c ∈ (clean x).data.head?, ¬ pyIsSpace c) ∧
    (∀ c ∈ (clean x).data.getLast?, ¬ pyIsSpace c) ∧
    clean none = "" ∧ clean (some "") = "" ∧
    cleanS (clean x) = clean x := by
  obtain ⟨h1, h2, h3, h4⟩ := clean_data_props x
  exact ⟨h1, h2, h3, h4, rfl, rfl, clean_idem x⟩

/-- Evaluation of the `clean` idempotence property at a concrete input. -/
theorem C9_clean_correct_witness :
    cleanS (clean (some "  a \t\n b  ")) = clean (some "  a \t\n b  ") ∧
    clean (some "  a \t\n b  ") = "a b" :=
  ⟨(C9_clean_correct (some "  a \t\n b  ")).2.2.2.2.2.2, by decide⟩

/-! ### Keyword classifiers (`detect_type_bucket`, `detect_modes`, `detect_status`) -/

/-- Python `text.lower()` as a character list. -/
def lowerData (s : String) : List Char := s.data.map pyLower

/-- Python substring test `needle in hay` on character lists. -/
def isSub (needle hay : List Char) : Bool := decide (needle <:+: hay)

/-- Model of `any(k in t for k in keys)`. -/
def keywordHit (t : List Char) (keys : List String) : Bool :=
  keys.any (fun k => isSub k.data t)

/-- Table `TYPE_MAP` from the script: transit-mode tag → keyword list. -/
def TYPE_MAP : List (String × List String) :=
  [("metro", ["metro", "u-bahn", "subway", "underground", "ube", "u‑bahn"]),
   ("lrt", ["light rail", "lrv", "tram", "tramway", "straßenbahn", "streetcar"]),
   ("s-bahn", ["s-bahn", "sbahn", "commuter rail", "régional express"]),
   ("monorail", ["monorail"]),
   ("brt", ["brt", "bus rapid transit"])]

/-- Table `TYPE_INFRA` from the script: infrastructure-signal keywords. -/
def TYPE_INFRA : List String :=
  ["extension", "extend", "verlängerung", "neubaustrecke", "tunnel", "tunneling", "station",
   "bahnhof", "signalling", "cbtc", "electrification", "upgrade", "depot", "viaduct",
   "civil works", "construction", "bau", "inbetriebnahme", "commissioning", "opening",
   "eröffnung", "interchange", "platform", "route", "alignment", "double track"]

/-- Table `TYPE_FLEET` from the script: fleet-signal keywords. -/
def TYPE_FLEET : List String :=
  ["fleet", "rolling stock", "fahrzeuge", "fahrzeug", "zug", "züge", "train", "trains",
   "wagen", "cars", "carriages", "emu", "dmu", "multiple unit", "bogie", "bogies", "order",
   "bestellung", "delivery", "lieferung", "supplier", "manufacturer", "trainset"]

/-- Table `STATUS_KEYS` from the script, in its declaration (= iteration) order:
Planung, Bau, Eröffnung, Verzögerung, Finanzierung. -/
def STATUS_KEYS : List (String × List String) :=
  [("Planung", ["plan", "rfp", "tender", "procure", "studie", "study", "design",
      "feasibility", "proposed", "approval", "genehmigung"]),
   ("Bau", ["build", "construction", "works start", "groundbreaking", "civil works",
      "installation", "im bau", "baubeginn"]),
   ("Eröffnung", ["open", "opening", "commission", "enter service", "in operation",
      "service starts", "eröffnung", "betrieb"]),
   ("Verzögerung", ["delay", "postpone", "halted", "suspended", "overrun",
      "verzögerung", "verschoben"]),
   ("Finanzierung", ["funding", "finance", "loan", "grant", "budget", "ppp",
      "finanzierung", "förderung"])]

/-- Function `detect_modes` from the script: the mode tags (in table order) whose
keyword list has a substring hit in the lowered text. -/
def detect_modes (text : String) : List String :=
  (TYPE_MAP.filter (fun p => keywordHit (lowerData text) p.2)).map Prod.fst

/-- Function `detect_type_bucket` from the script. -/
def detect_type_bucket (text : String) : String :=
  let t := lowerData text
  let has_infra := keywordHit t TYPE_INFRA
  let has_fleet := keywordHit t TYPE_FLEET
  if has_infra && has_fleet then "gemischt"
  else if has_infra then "infrastruktur"
  else if has_fleet then "flotte"
  else ""

/-- The `for status, keys in STATUS_KEYS.items()` loop of `detect_status`. -/
def detectStatusAux (t : List Char) : List (String × List String) → String
  | [] => ""
  | (status, keys) :: rest =>
    if keywordHit t keys then status else detectStatusAux t rest

/-- Function `detect_status` from the script. -/
def detect_status (text : String) : String :=
  detectStatusAux (lowerData text) STATUS_KEYS

/-- The boolean keyword test agrees with propositional substring containment. -/
theorem keywordHit_iff (t : List Char) (keys : List String) :
    keywordHit t keys = true ↔ ∃ k ∈ keys, k.data <:+: t := by
  simp [keywordHit, isSub, List.any_eq_true]

/-- The status loop returns the first table entry with a keyword hit. -/
theorem detectStatusAux_eq_find (t : List Char) :
    ∀ table : List (String × List String),
      detectStatusAux t table =
        ((table.find? (fun p => keywordHit t p.2)).map Prod.fst).getD "" := by
  intro table
  induction table with
  | nil => rfl
  | cons p rest ih =>
    obtain ⟨status, keys⟩ := p
    by_cases h : keywordHit t keys
    · simp [detectStatusAux, List.find?_cons, h]
    · simp only [Bool.not_eq_true] at h
      simp [detectStatusAux, List.find?_cons, h, ih]

/-- C2: `detect_status` returns the first status of the fixed ordered
table (Planung, Bau, Eröffnung, Verzögerung, Finanzierung) with a
case-insensitive keyword substring hit, and `""` when none hits; any text
containing both `"construction"` and `"tender"` yields `"Planung"`. -/
theorem C2_detect_status_first_match (text : String) :
    detect_status text =
      ((STATUS_KEYS.find? (fun p => keywordHit (lowerData text) p.2)).map
        Prod.fst).getD "" ∧
    ("construction".data <:+: text.data → "tender".data <:+: text.data →
      detect_status text = "Planung") := by
  refine ⟨detectStatusAux_eq_find _ STATUS_KEYS, ?_⟩
  intro _ htender
  have hlow : "tender".data <:+: lowerData text := by
    have h := htender.map pyLower
    have hfix : "tender".data.map pyLower = "tender".data := by decide
    rw [hfix] at h
    exact h
  have hhit : keywordHit (lowerData text)
      ["plan", "rfp", "tender", "procure", "studie", "study", "design",
       "feasibility", "proposed", "approval", "genehmigung"] = true := by
    apply (keywordHit_iff _ _).mpr
    exact ⟨"tender", by simp, hlow⟩
  simp [detect_status, STATUS_KEYS, detectStatusAux, hhit]

/-- Evaluation of the C2 precedence property on a concrete text containing
both a Bau keyword and a Planung keyword. -/
theorem C2_detect_status_first_match_witness :
    detect_status "construction tender announced" = "Planung" :=
  (C2_detect_status_first_match "construction tender announced").2
    (by decide) (by decide)

/-- C3: `detect_type_bucket` lower-cases the text and tests substring
containment against the infrastructure and fleet keyword sets: both →
`"gemischt"`, infrastructure only → `"infrastruktur"`, fleet only →
`"flotte"`, neither → `""`. -/
theorem C3_detect_type_bucket_cases (text : String) :
    (detect_type_bucket text = "gemischt" ↔
      (∃ k ∈ TYPE_INFRA, k.data <:+: lowerData text) ∧
      (∃ k ∈ TYPE_FLEET, k.data <:+: lowerData text)) ∧
    (detect_type_bucket text = "infrastruktur" ↔
      (∃ k ∈ TYPE_INFRA, k.data <:+: lowerData text) ∧
      ¬(∃ k ∈ TYPE_FLEET, k.data <:+: lowerData text)) ∧
    (detect_type_bucket text = "flotte" ↔
      ¬(∃ k ∈ TYPE_INFRA, k.data <:+: lowerData text) ∧
      (∃ k ∈ TYPE_FLEET, k.data <:+: lowerData text)) ∧
    (detect_type_bucket text = "" ↔
      ¬(∃ k ∈ TYPE_INFRA, k.data <:+: lowerData text) ∧
      ¬(∃ k ∈ TYPE_FLEET, k.data <:+: lowerData text)) := by
  have hi := keywordHit_iff (lowerData text) TYPE_INFRA
  have hf := keywordHit_iff (lowerData text) TYPE_FLEET
  cases h1 : keywordHit (lowerData text) TYPE_INFRA <;>
    cases h2 : keywordHit (lowerData text) TYPE_FLEET <;>
    · rw [h1] at hi
      rw [h2] at hf
      simp only [detect_type_bucket, h1, h2]
      simp_all

/-! ### Locator (`find_city_country`) -/

/-- Case-insensitive equality of two character lists (regex `re.IGNORECASE`). -/
def lowEq (a b : List Char) : Bool := a.map pyLower == b.map pyLower

/-- An occurrence of pattern `pat` in `t` at position `i` satisfying
`re.search(rf"\b{pat}\b", t, re.IGNORECASE)`: the slice of `t` at `i`
matches `pat` case-insensitively and both ends sit on `\b` word boundaries
(the table's city names start and end with word characters). -/
def wwMatchAt (pat t : List Char) (i : Nat) : Bool :=
  let n := pat.length
  decide (i + n ≤ t.length) &&
  lowEq ((t.drop i).take n) pat &&
  (match (t.take i).getLast? with
   | none => true
   | some c => !isWordChar c) &&
  (match (t.drop (i + n)).head? with
   | none => true
   | some c => !isWordChar c)

/-- Whole-word, case-insensitive search of a city name in the text. -/
def wwMatch (pat : String) (t : List Char) : Bool :=
  (List.range (t.length + 1)).any (wwMatchAt pat.data t)

/-- Table `CITY_TO_COUNTRY` from the script, in dict insertion (= iteration) order. -/
def CITY_TO_COUNTRY : List (String × String) :=
  [("Berlin", "Germany"), ("Hamburg", "Germany"), ("München", "Germany"),
   ("Munich", "Germany"), ("Frankfurt", "Germany"),
   ("Köln", "Germany"), ("Cologne", "Germany"), ("Stuttgart", "Germany"),
   ("Leipzig", "Germany"), ("Nürnberg", "Germany"),
   ("Wien", "Austria"), ("Vienna", "Austria"), ("Graz", "Austria"), ("Linz", "Austria"),
   ("Zürich", "Switzerland"), ("Zurich", "Switzerland"), ("Genf", "Switzerland"),
   ("Geneva", "Switzerland"), ("Basel", "Switzerland"),
   ("Paris", "France"), ("Lyon", "France"), ("Marseille", "France"),
   ("Lille", "France"), ("Rennes", "France"), ("Toulouse", "France"),
   ("Madrid", "Spain"), ("Barcelona", "Spain"), ("Valencia", "Spain"),
   ("Sevilla", "Spain"), ("Seville", "Spain"), ("Bilbao", "Spain"),
   ("London", "United Kingdom"), ("Birmingham", "United Kingdom"),
   ("Manchester", "United Kingdom"), ("Glasgow", "United Kingdom"),
   ("Edinburgh", "United Kingdom"),
   ("Roma", "Italy"), ("Rome", "Italy"), ("Milano", "Italy"), ("Milan", "Italy"),
   ("Napoli", "Italy"), ("Naples", "Italy"), ("Torino", "Italy"), ("Turin", "Italy"),
   ("Warszawa", "Poland"), ("Warsaw", "Poland"), ("Kraków", "Poland"),
   ("Krakow", "Poland"), ("Gdańsk", "Poland"), ("Gdansk", "Poland"),
   ("Praha", "Czech Republic"), ("Prague", "Czech Republic"),
   ("Brno", "Czech Republic"), ("Ostrava", "Czech Republic"),
   ("Budapest", "Hungary"), ("Debrecen", "Hungary"), ("Szeged", "Hungary"),
   ("Lisboa", "Portugal"), ("Lisbon", "Portugal"), ("Porto", "Portugal"),
   ("Oslo", "Norway"), ("Stockholm", "Sweden"), ("Göteborg", "Sweden"),
   ("Gothenburg", "Sweden"), ("Malmö", "Sweden"),
   ("København", "Denmark"), ("Copenhagen", "Denmark"), ("Aarhus", "Denmark"),
   ("Helsinki", "Finland"), ("Tampere", "Finland"),
   ("Athens", "Greece"), ("Thessaloniki", "Greece"),
   ("Istanbul", "Turkey"), ("Ankara", "Turkey"), ("İzmir", "Turkey"), ("Izmir", "Turkey"),
   ("Doha", "Qatar"), ("Dubai", "UAE"), ("Abu Dhabi", "UAE"),
   ("Riyadh", "Saudi Arabia"), ("Jeddah", "Saudi Arabia"),
   ("Cairo", "Egypt"), ("Casablanca", "Morocco"), ("Algiers", "Algeria"),
   ("New York", "USA"), ("Chicago", "USA"), ("Boston", "USA"),
   ("Los Angeles", "USA"), ("Washington", "USA"), ("Miami", "USA"),
   ("San Francisco", "USA"),
   ("Toronto", "Canada"), ("Montréal", "Canada"), ("Montreal", "Canada"),
   ("Vancouver", "Canada"),
   ("Mexico City", "Mexico"), ("Guadalajara", "Mexico"), ("Monterrey", "Mexico"),
   ("Santiago", "Chile"), ("Buenos Aires", "Argentina"), ("Lima", "Peru"),
   ("São Paulo", "Brazil"), ("Sao Paulo", "Brazil"), ("Rio de Janeiro", "Brazil"),
   ("Jakarta", "Indonesia"), ("Manila", "Philippines"), ("Bangkok", "Thailand"),
   ("Singapore", "Singapore"), ("Hong Kong", "China"),
   ("Shanghai", "China"), ("Beijing", "China"), ("Shenzhen", "China"),
   ("Guangzhou", "China"), ("Wuhan", "China"), ("Chengdu", "China"),
   ("Tokyo", "Japan"), ("Osaka", "Japan"), ("Nagoya", "Japan"),
   ("Yokohama", "Japan"), ("Fukuoka", "Japan"),
   ("Seoul", "South Korea"), ("Busan", "South Korea"), ("Incheon", "South Korea"),
   ("Taipei", "Taiwan"), ("Kaohsiung", "Taiwan"),
   ("Sydney", "Australia"), ("Melbourne", "Australia"), ("Perth", "Australia"),
   ("Brisbane", "Australia"),
   ("Auckland", "New Zealand"), ("Wellington", "New Zealand")]

/-- Table `URL_CITY_HINTS` from the script: URL-path fragment → (city, country). -/
def URL_CITY_HINTS : List (String × String × String) :=
  [("/berlin/", "Berlin", "Germany"),
   ("/muenchen", "München", "Germany"),
   ("/pra", "Praha", "Czech Republic"),
   ("/warschau", "Warszawa", "Poland"),
   ("/london", "London", "United Kingdom"),
   ("/par", "Paris", "France"),
   ("/mad", "Madrid", "Spain"),
   ("/bar", "Barcelona", "Spain")]

/-- The `for city, country in CITY_TO_COUNTRY.items()` loop. -/
def cityLoop (t : List Char) : List (String × String) → Option (String × String)
  | [] => none
  | (city, country) :: rest =>
    if wwMatch city t then some (city, country) else cityLoop t rest

/-- The `for key,(c,co) in URL_CITY_HINTS.items()` loop (`key in url.lower()`). -/
def hintLoop (u : List Char) : List (String × String × String) → Option (String × String)
  | [] => none
  | (key, c, co) :: rest =>
    if isSub key.data u then some (c, co) else hintLoop u rest

/-- Function `find_city_country` from the script: city table first, then URL hints,
else `("", "")`. -/
def find_city_country (text : String) (url : String) : String × String :=
  match cityLoop text.data CITY_TO_COUNTRY with
  | some r => r
  | none =>
    match hintLoop (lowerData url) URL_CITY_HINTS with
    | some r => r
    | none => ("", "")

/-- The city loop returns the first table entry whose city matches. -/
theorem cityLoop_eq_find (t : List Char) :
    ∀ table : List (String × String),
      cityLoop t table = table.find? (fun p => wwMatch p.1 t) := by
  intro table
  induction table with
  | nil => rfl
  | cons p rest ih =>
    obtain ⟨city, country⟩ := p
    by_cases h : wwMatch city t
    · simp [cityLoop, List.find?_cons, h]
    · simp only [Bool.not_eq_true] at h
      simp [cityLoop, List.find?_cons, h, ih]

/-- The hint loop returns the first hint whose key occurs in the lowered URL. -/
theorem hintLoop_eq_find (u : List Char) :
    ∀ hints : List (String × String × String),
      hintLoop u hints = (hints.find? (fun p => isSub p.1.data u)).map Prod.snd := by
  intro hints
  induction hints with
  | nil => rfl
  | cons p rest ih =>
    obtain ⟨key, c, co⟩ := p
    by_cases h : isSub key.data u
    · simp [hintLoop, List.find?_cons, h]
    · simp only [Bool.not_eq_true] at h
      simp [hintLoop, List.find?_cons, h, ih]

/-- C4: `find_city_country` returns the (city, country) of the first
city (in table order) matching the text as a whole-word, case-insensitive
substring; failing that, the mapping of the first URL-hint fragment that
occurs in the lowered URL; failing that `("", "")`.  Concretely,
`locate("New subway extension planned in New York", "")` is
`("New York", "USA")` and `locate("", ".../berlin/index.htm")` is
`("Berlin", "Germany")`. -/
theorem C4_find_city_country (text url : String) :
    find_city_country text url =
      (((CITY_TO_COUNTRY.find? (fun p => wwMatch p.1 text.data)).or
        ((URL_CITY_HINTS.find? (fun p => isSub p.1.data (lowerData url))).map
          Prod.snd)).getD ("", "")) ∧
    find_city_country "New subway extension planned in New York" ""
      = ("New York", "USA") ∧
    find_city_country "" "https://www.urbanrail.net/berlin/index.htm"
      = ("Berlin", "Germany") := by
  refine ⟨?_, by decide, by decide⟩
  rw [find_city_country, cityLoop_eq_find, hintLoop_eq_find]
  cases h1 : CITY_TO_COUNTRY.find? (fun p => wwMatch p.1 text.data) with
  | some r => simp
  | none =>
    cases h2 : URL_CITY_HINTS.find? (fun p => isSub p.1.data (lowerData url)) with
    | some p => simp
    | none => simp

/-! ### Record extractor -/

/-- An HTML element handle as exposed by the structural capability: all the
scraper reads from a picked element here is its text. -/
structure Element where
  text : String
deriving DecidableEq

/-- Python `str.split(",")` on a character list; `acc` holds the current
chunk reversed. -/
def splitCommaAux : List Char → List Char → List (List Char)
  | [], acc => [acc.reverse]
  | c :: rest, acc =>
    if c = ',' then acc.reverse :: splitCommaAux rest []
    else splitCommaAux rest (c :: acc)

/-- List comprehension `[s.strip() for s in sel_list.split(",") if s.strip()]` from `pick`. -/
def splitSelectors (sel_list : String) : List String :=
  ((splitCommaAux sel_list.data []).map (fun l => (⟨pyStrip l⟩ : String))).filter
    (fun s => s ≠ "")

/-- The `for sel in ...` loop of `pick`; `scope` is the block's
`select_one` capability. -/
def pickAux (scope : String → Option Element) : List String → Option Element
  | [] => none
  | sel :: rest =>
    match scope sel with
    | some el => some el
    | none => pickAux scope rest

/-- Function `pick` from the script: the first comma-separated selector alternative
that yields any element at all. -/
def pick (sel_list : String) (scope : String → Option Element) : Option Element :=
  pickAux scope (splitSelectors sel_list)

/-- The spec's selector resolution, stated from its words: use the first
alternative that yields an element whose *normalized text is non-empty*
(an element with empty text does not stop the search). -/
def pickSpecAux (scope : String → Option Element) : List String → Option Element
  | [] => none
  | sel :: rest =>
    match scope sel with
    | some el => if cleanS el.text ≠ "" then some el else pickSpecAux scope rest
    | none => pickSpecAux scope rest

/-- Spec-side counterpart of `pick` (see `pickSpecAux`). -/
def pickSpec (sel_list : String) (scope : String → Option Element) : Option Element :=
  pickSpecAux scope (splitSelectors sel_list)

/-- A block in which the first title alternative matches an element with
empty text while the second matches one with non-empty text. -/
def scopeC6 : String → Option Element := fun sel =>
  if sel = "h2 a" then some ⟨""⟩
  else if sel = "h3 a" then some ⟨"News title"⟩
  else none

/-- C6 counterexample: on `scopeC6` the code's `pick` stops at the
first matching element even though its normalized text is empty, returning
a different element than the spec's non-empty-text rule demands. -/
theorem C6_counterexample :
    pick "h2 a, h3 a" scopeC6 = some ⟨""⟩ ∧
    pickSpec "h2 a, h3 a" scopeC6 = some ⟨"News title"⟩ ∧
    pick "h2 a, h3 a" scopeC6 ≠ pickSpec "h2 a, h3 a" scopeC6 := by
  refine ⟨by decide, by decide, by decide⟩

/-- C6 amended: within each block the extractor attempts the
comma-separated selector alternatives in order and uses the *first
alternative that yields an element*, regardless of whether that element's
normalized text is empty. -/
theorem C6_amended_pick_first_element (sel_list : String)
    (scope : String → Option Element) :
    pick sel_list scope = (splitSelectors sel_list).findSome? scope := by
  unfold pick
  induction splitSelectors sel_list with
  | nil => rfl
  | cons sel rest ih =>
    rw [pickAux, List.findSome?_cons]
    cases scope sel <;> simp [ih]

/-- One source's static configuration (`SOURCES` entries). -/
structure Source where
  name : String
  base : String
  url : String
  list_selector : String
  title_selector : String
  link_selector : String
  date_selector : Option String
deriving DecidableEq

/-- Table `SOURCES` from the script, in declaration order. -/
def SOURCES : List Source :=
  [{ name := "IRJ Metro",
     base := "https://www.railjournal.com",
     url := "https://www.railjournal.com/tag/metro/",
     list_selector := "article",
     title_selector := "h2 a, h3 a, .entry-title a",
     link_selector := "h2 a, h3 a, .entry-title a",
     date_selector := some "time, .jeg_meta_date, .post-date" },
   { name := "Railway Gazette Metro",
     base := "https://www.railwaygazette.com",
     url := "https://www.railwaygazette.com/metro",
     list_selector := "article, .listingResult, .article",
     title_selector := "h3 a, h2 a, .headline a, a.link",
     link_selector := "h3 a, h2 a, .headline a, a.link",
     date_selector := some "time, .date, time[datetime]" },
   { name := "UrbanRail News",
     base := "https://www.urbanrail.net",
     url := "https://www.urbanrail.net/news.htm",
     list_selector := "p, li",
     title_selector := "a",
     link_selector := "a",
     date_selector := none }]

/-- One output row (a CSV line), fixed column order as in `write_csv`. -/
structure Row where
  Datum : String
  Quelle : String
  Titel : String
  Link : String
  Land : String
  Stadt : String
  Projekttyp : String
  Status : String
  Details : String
deriving DecidableEq

/-- The enrichment-and-assembly tail of the `parse_list` loop (lines
240–262): classification over `title + " " + details`, project-type
resolution, and the record dictionary.  `now` stands for
`datetime.utcnow().date().isoformat()`. -/
def assembleRow (cfg : Source) (now title link date pubdate details : String) : Row :=
  let text_for_nlp := title ++ " " ++ details
  let cc := find_city_country text_for_nlp link
  let bucket := detect_type_bucket text_for_nlp
  let modes := detect_modes text_for_nlp
  let proj_type :=
    if bucket = "" ∧ modes ≠ [] then String.intercalate "," modes else bucket
  { Datum := pyOr pubdate (pyOr date now),
    Quelle := cfg.name,
    Titel := title,
    Link := pyOr link cfg.url,
    Land := cc.2,
    Stadt := cc.1,
    Projekttyp := proj_type,
    Status := detect_status text_for_nlp,
    Details := details }

/-- C8: the enrichment is a pure function of the raw record's fields:
two runs whose raw records agree on every field — in particular on the
resolved date, the only field where the clock can enter — produce identical
enriched rows, whatever the two clock readings were. -/
theorem C8_enrichment_pure (cfg : Source)
    (title link date pubdate details now₁ now₂ : String)
    (h : pyOr pubdate (pyOr date now₁) = pyOr pubdate (pyOr date now₂)) :
    assembleRow cfg now₁ title link date pubdate details =
      assembleRow cfg now₂ title link date pubdate details := by
  simp only [assembleRow]
  rw [h]

/-- Evaluation of C8 at concrete raw records with two different clocks. -/
theorem C8_enrichment_pure_witness :
    assembleRow ⟨"S", "b", "u", "li", "t", "l", none⟩
        "2024-01-01" "Title" "" "" "2024-05-05" "Det" =
      assembleRow ⟨"S", "b", "u", "li", "t", "l", none⟩
        "2024-02-02" "Title" "" "" "2024-05-05" "Det" :=
  C8_enrichment_pure _ _ _ _ _ _ _ _ (by decide)

/-- C10: a kept candidate (title and link not both empty) whose
resolved link is empty gets the source's listing URL as its `Link`, and
every row emitted for a configured source has a non-empty `Link`. -/
theorem C10_link_nonempty (cfg : Source) (hcfg : cfg ∈ SOURCES)
    (now title link date pubdate details : String)
    (hkeep : ¬(title = "" ∧ link = "")) :
    (link = "" → (assembleRow cfg now title link date pubdate details).Link = cfg.url) ∧
    (assembleRow cfg now title link date pubdate details).Link ≠ "" := by
  have hurl : cfg.url ≠ "" := by
    simp only [SOURCES, List.mem_cons, List.not_mem_nil, or_false] at hcfg
    rcases hcfg with rfl | rfl | rfl <;> decide
  constructor
  · intro hl
    simp [assembleRow, pyOr, hl]
  · simp only [assembleRow, pyOr]
    by_cases hl : link = ""
    · simp [hl, hurl]
    · simp [hl]

/-- Evaluation of C10 on a concrete candidate with an empty resolved link. -/
theorem C10_link_nonempty_witness :
    (assembleRow
        ⟨"UrbanRail News", "https://www.urbanrail.net",
         "https://www.urbanrail.net/news.htm", "p, li", "a", "a", none⟩
        "2024-01-01" "Some title" "" "" "" "").Link
      = "https://www.urbanrail.net/news.htm" :=
  (C10_link_nonempty
      ⟨"UrbanRail News", "https://www.urbanrail.net",
       "https://www.urbanrail.net/news.htm", "p, li", "a", "a", none⟩
      (by decide) "2024-01-01" "Some title" "" "" "" "" (by decide)).1 rfl

/-! ### Merge / dedupe / sort (`write_csv`) -/

/-- The composite key of `drop_duplicates(subset=["Link","Titel"])`. -/
def rowKey (r : Row) : String × String := (r.Link, r.Titel)

/-- Pandas `drop_duplicates` with `keep` set to first: keep each row whose (Link, Titel)
key has not been seen earlier in the list.  `seen` accumulates the keys of
the rows already kept. -/
def dedupeAux (seen : List (String × String)) : List Row → List Row
  | [] => []
  | r :: rest =>
    if rowKey r ∈ seen then dedupeAux seen rest
    else r :: dedupeAux (rowKey r :: seen) rest

/-- Keep-first deduplication on the (Link, Titel) key. -/
def dedupeByKey (l : List Row) : List Row := dedupeAux [] l

/-- Modelled from the spec: `pd.to_datetime(·, errors="coerce")` is pandas
library code, not part of this repository; per the spec it parses each
row's `Datum` into a sortable value and maps unparsable dates to `NaT`.
Modelled for the ISO `YYYY-MM-DD` dates the scraper writes: a well-formed
ISO date becomes `some` of its lexicographic numeral key, anything else
`none`. -/
def parseDate (s : String) : Option Nat :=
  match s.data with
  | [y1, y2, y3, y4, '-', m1, m2, '-', d1, d2] =>
    if y1.isDigit && y2.isDigit && y3.isDigit && y4.isDigit &&
        m1.isDigit && m2.isDigit && d1.isDigit && d2.isDigit then
      some ((((y1.toNat - 48) * 1000 + (y2.toNat - 48) * 100 +
              (y3.toNat - 48) * 10 + (y4.toNat - 48)) * 100 +
             ((m1.toNat - 48) * 10 + (m2.toNat - 48))) * 100 +
            ((d1.toNat - 48) * 10 + (d2.toNat - 48)))
    else none
  | _ => none

/-- The row order of `sort_values("Datum_sort", ascending=False)` with
`NaT` placed last: descending on parsed dates, unparsable dates after
every parsable one. -/
def dateLE (r s : Row) : Bool :=
  match parseDate r.Datum, parseDate s.Datum with
  | some x, some y => decide (y ≤ x)
  | some _, none => true
  | none, some _ => false
  | none, none => true

/-- Propositional form of `dateLE`, the sort relation of `write_csv`. -/
def dateLe (r s : Row) : Prop := dateLE r s = true

instance : DecidableRel dateLe := fun r s => instDecidableEqBool (dateLE r s) true

instance : IsTotal Row dateLe := by
  constructor
  intro r s
  unfold dateLe dateLE
  rcases parseDate r.Datum with _ | x <;> rcases parseDate s.Datum with _ | y <;> simp
  omega

instance : IsTrans Row dateLe := by
  constructor
  intro r s t
  unfold dateLe dateLE
  rcases parseDate r.Datum with _ | x <;> rcases parseDate s.Datum with _ | y <;>
    rcases parseDate t.Datum with _ | z <;> simp <;> omega

/-- The merge/dedupe/sort pipeline of `write_csv`: prior rows first, new
rows appended (`pd.concat([df_old, df_new])`), keep-first deduplication on
(Link, Titel), then the date sort (pandas `sort_values` is library code;
any sort realises it — modelled with insertion sort over `dateLe`). -/
def write_csv_rows (old new : List Row) : List Row :=
  List.insertionSort dateLe (dedupeByKey (old ++ new))

/-- A kept row's key is outside `seen`, and the row is the first element of
the input carrying its key. -/
theorem mem_dedupeAux : ∀ (seen : List (String × String)) (l : List Row)
    (r : Row), r ∈ dedupeAux seen l →
    rowKey r ∉ seen ∧ l.find? (fun s => rowKey s == rowKey r) = some r := by
  intro seen l
  induction l generalizing seen with
  | nil => simp [dedupeAux]
  | cons a rest ih =>
    intro r hr
    by_cases ha : rowKey a ∈ seen
    · rw [dedupeAux, if_pos ha] at hr
      obtain ⟨hs, hfind⟩ := ih seen r hr
      refine ⟨hs, ?_⟩
      have hne : (rowKey a == rowKey r) = false := by
        cases hbeq : rowKey a == rowKey r
        · rfl
        · exact absurd (eq_of_beq hbeq ▸ ha) hs
      rw [List.find?_cons, hne]
      exact hfind
    · rw [dedupeAux, if_neg ha] at hr
      rcases List.mem_cons.mp hr with rfl | hr'
      · exact ⟨ha, by rw [List.find?_cons, beq_self_eq_true]⟩
      · obtain ⟨hs, hfind⟩ := ih (rowKey a :: seen) r hr'
        have hsa : rowKey r ≠ rowKey a := by
          intro h
          exact hs (by rw [h]; exact List.mem_cons_self _ _)
        have hns : rowKey r ∉ seen := fun h => hs (List.mem_cons_of_mem _ h)
        refine ⟨hns, ?_⟩
        have hne : (rowKey a == rowKey r) = false := by
          cases hbeq : rowKey a == rowKey r
          · rfl
          · exact absurd (eq_of_beq hbeq).symm hsa
        rw [List.find?_cons, hne]
        exact hfind

/-- Deduplication leaves pairwise-distinct (Link, Titel) keys. -/
theorem dedupeAux_pairwise : ∀ (seen : List (String × String)) (l : List Row),
    (dedupeAux seen l).Pairwise (fun r s => rowKey r ≠ rowKey s) := by
  intro seen l
  induction l generalizing seen with
  | nil => simp [dedupeAux]
  | cons a rest ih =>
    by_cases ha : rowKey a ∈ seen
    · rw [dedupeAux, if_pos ha]
      exact ih seen
    · rw [dedupeAux, if_neg ha]
      refine List.pairwise_cons.mpr ⟨?_, ih (rowKey a :: seen)⟩
      intro s hs
      have := (mem_dedupeAux (rowKey a :: seen) rest s hs).1
      intro h
      exact this (by rw [← h]; exact List.mem_cons_self _ _)

/-- Every key of the input whose key is not in `seen` survives dedupe. -/
theorem dedupeAux_keys : ∀ (seen : List (String × String)) (l : List Row)
    (k : String × String), k ∉ seen → k ∈ l.map rowKey →
    ∃ r ∈ dedupeAux seen l, rowKey r = k := by
  intro seen l
  induction l generalizing seen with
  | nil => simp
  | cons a rest ih =>
    intro k hks hkl
    by_cases ha : rowKey a ∈ seen
    · rw [dedupeAux, if_pos ha]
      have hne : k ≠ rowKey a := fun h => hks (h ▸ ha)
      have : k ∈ rest.map rowKey := by
        rcases List.mem_map.mp hkl with ⟨b, hb, hbk⟩
        rcases List.mem_cons.mp hb with rfl | hb'
        · exact absurd hbk.symm hne
        · exact List.mem_map.mpr ⟨b, hb', hbk⟩
      exact ih seen k hks this
    · rw [dedupeAux, if_neg ha]
      by_cases hk : k = rowKey a
      · exact ⟨a, List.mem_cons_self _ _, hk.symm⟩
      · have : k ∈ rest.map rowKey := by
          rcases List.mem_map.mp hkl with ⟨b, hb, hbk⟩
          rcases List.mem_cons.mp hb with rfl | hb'
          · exact absurd hbk.symm hk
          · exact List.mem_map.mpr ⟨b, hb', hbk⟩
        have hks' : k ∉ rowKey a :: seen := by
          intro h
          rcases List.mem_cons.mp h with h' | h'
          · exact hk h'
          · exact hks h'
        obtain ⟨r, hr, hrk⟩ := ih (rowKey a :: seen) k hks' this
        exact ⟨r, List.mem_cons_of_mem _ hr, hrk⟩

/-- C1: after the merge, no two written rows share a (Link, Titel)
key; a written row whose key already occurs in the prior dataset is the
first prior row carrying that key (existing row precedence, so for a key
present in both the prior dataset and the new batch the kept row equals
the prior row); and every prior key is still present. -/
theorem C1_merge_dedupe_first_wins (old new : List Row) :
    (write_csv_rows old new).Pairwise (fun r s => rowKey r ≠ rowKey s) ∧
    (∀ r ∈ write_csv_rows old new, rowKey r ∈ old.map rowKey →
      old.find? (fun s => rowKey s == rowKey r) = some r) ∧
    (∀ k ∈ old.map rowKey, ∃ r ∈ write_csv_rows old new, rowKey r = k) := by
  have hperm : List.Perm (write_csv_rows old new) (dedupeByKey (old ++ new)) :=
    List.perm_insertionSort dateLe _
  refine ⟨?_, ?_, ?_⟩
  · exact (hperm.pairwise_iff (fun h => Ne.symm h)).mpr
      (dedupeAux_pairwise [] (old ++ new))
  · intro r hr hk
    have hr' : r ∈ dedupeByKey (old ++ new) := hperm.mem_iff.mp hr
    obtain ⟨-, hfind⟩ := mem_dedupeAux [] _ r hr'
    rw [List.find?_append] at hfind
    rcases hsome : old.find? (fun s => rowKey s == rowKey r) with _ | y
    · exfalso
      have hiss : (old.find? (fun s => rowKey s == rowKey r)).isSome := by
        rw [List.find?_isSome]
        rcases List.mem_map.mp hk with ⟨x, hx, hxk⟩
        exact ⟨x, hx, by simp [hxk]⟩
      rw [hsome] at hiss
      simp at hiss
    · rw [hsome] at hfind
      simp only [Option.or_some, Option.some.injEq] at hfind
      rw [hfind]
  · intro k hk
    have hk' : k ∈ (old ++ new).map rowKey := by
      rw [List.map_append]
      exact List.mem_append_left _ hk
    obtain ⟨r, hr, hrk⟩ := dedupeAux_keys [] _ k (by simp) hk'
    exact ⟨r, hperm.mem_iff.mpr hr, hrk⟩

/-- Prior row of the C1 evaluation. -/
def mrowOld : Row := ⟨"2024-05-01", "SrcA", "T1", "L1", "", "", "", "", "old details"⟩

/-- New-batch row sharing `mrowOld`'s (Link, Titel) key but with different
content. -/
def mrowNewDup : Row := ⟨"2024-06-15", "SrcB", "T1", "L1", "", "", "", "", "new details"⟩

/-- New-batch row with a fresh key. -/
def mrowNewB : Row := ⟨"2024-06-15", "SrcB", "T2", "L2", "", "", "", "", ""⟩

/-- Evaluation of C1 on a prior dataset and a new batch with a key
conflict: the prior row is kept, the conflicting new row is dropped. -/
theorem C1_merge_dedupe_first_wins_witness :
    [mrowOld].find? (fun s => rowKey s == rowKey mrowOld) = some mrowOld ∧
    mrowOld ∈ write_csv_rows [mrowOld] [mrowNewDup, mrowNewB] ∧
    mrowNewDup ∉ write_csv_rows [mrowOld] [mrowNewDup, mrowNewB] :=
  ⟨(C1_merge_dedupe_first_wins [mrowOld] [mrowNewDup, mrowNewB]).2.1 mrowOld
      (by decide) (by decide),
   by decide, by decide⟩

/-- Row dated `2024-05-01` of the spec's sorting example. -/
def srowMay : Row := ⟨"2024-05-01", "S", "TMay", "LMay", "", "", "", "", ""⟩

/-- Row dated `2024-06-15` of the spec's sorting example. -/
def srowJun : Row := ⟨"2024-06-15", "S", "TJun", "LJun", "", "", "", "", ""⟩

/-- Row with the unparsable date `"TBD"` of the spec's sorting example. -/
def srowTbd : Row := ⟨"TBD", "S", "TTbd", "LTbd", "", "", "", "", ""⟩

/-- C5: the written rows are sorted descending by parsed date with
unparsable dates after all parsable ones (`dateLe` holds between each pair
in order), and the rows dated 2024-05-01, 2024-06-15 and "TBD" are
written as 2024-06-15, 2024-05-01, "TBD". -/
theorem C5_sorted_desc_unparsable_last (old new : List Row) :
    (write_csv_rows old new).Pairwise dateLe ∧
    write_csv_rows [] [srowMay, srowJun, srowTbd]
      = [srowJun, srowMay, srowTbd] :=
  ⟨List.sorted_insertionSort dateLe _, by decide⟩

/-! ### Orchestrator error handling (`parse_list` / `main`) -/

/-- Control-flow model of `parse_list`: the listing-page fetch arrives as
an `Except`; everything after a successful fetch — soup construction,
per-block extraction and enrichment — is the injected `process`, which may
itself raise.  The source's `try/except` (lines 214–218) wraps only the
fetch: a fetch error is turned into the empty batch (after a printed
warning), while an error out of `process` propagates unhandled. -/
def parse_listE (fetch : Except String String)
    (process : String → Except String (List Row)) : Except String (List Row) :=
  match fetch with
  | .error _ => .ok []
  | .ok html => process html

/-- The `for cfg in SOURCES` loop of `main`: batches are concatenated in
order; `main` installs no handler, so the first error aborts the loop and
nothing is written. -/
def mainCollect (runs : List (Except String (List Row))) :
    Except String (List Row) :=
  runs.foldl
    (fun acc run =>
      match acc, run with
      | .error e, _ => .error e
      | .ok rows, .ok batch => .ok (rows ++ batch)
      | .ok _, .error e => .error e)
    (.ok [])

/-- A record collected from a healthy source. -/
def c7Row : Row := ⟨"2024-01-01", "Src", "T", "L", "", "", "", "", ""⟩

/-- C7 counterexample: a failure raised after the listing fetch
succeeded (during extraction/enrichment) is not caught: `parse_list`
propagates it and the run aborts, losing the records already collected
from other sources — contradicting the claim that any uncaught per-source
failure merely logs a warning and the run continues. -/
theorem C7_counterexample :
    parse_listE (.ok "<html>") (fun _ => .error "boom") = .error "boom" ∧
    mainCollect [.ok [c7Row], parse_listE (.ok "<html>") (fun _ => .error "boom")]
      = .error "boom" :=
  ⟨rfl, rfl⟩

/-- C7 amended: only the initial listing-page fetch is guarded: a
fetch failure yields the empty batch and the run continues (later sources
still contribute), while any failure after a successful fetch propagates
out of `parse_list` unhandled. -/
theorem C7_amended_fetch_only_guarded (e html : String)
    (process : String → Except String (List Row)) (batch : List Row) :
    parse_listE (.error e) process = .ok [] ∧
    parse_listE (.ok html) process = process html ∧
    mainCollect [parse_listE (.error e) process, .ok batch] = .ok batch := by
  refine ⟨rfl, rfl, ?_⟩
  simp [parse_listE, mainCollect]

end Metro
